import Mathlib

/-!
Verification of the multi-environment configuration pipeline
(`manager.py` + `schema.py`).

The embedding models the YAML/Python value universe as the inductive type
`Value` (strings, integers, booleans, null, lists, nested mappings).
Python dictionaries with string keys are modelled as association lists in
insertion order with unique keys (the `dictWF` predicate states key
uniqueness, which every dict built by the Python runtime satisfies).
Floating point values are outside the modelled universe.

Dictionary primitives mirror the Python operations used by the source:
`dictGet` is `d[k]` / `d.get(k)` (first matching entry), `dictAssign` is
`d[k] = v` (replace in place if present, else append, preserving insertion
order), `dictContains` is `k in d`.
-/

set_option autoImplicit false

/-- A YAML/Python value: string, integer, boolean, None/null, list,
or nested mapping (dict with string keys, in insertion order). -/
inductive Value where
  | str (s : String)
  | int (n : Int)
  | bool (b : Bool)
  | null
  | list (xs : List Value)
  | dict (entries : List (String × Value))
deriving Repr

/-- A Python dict with string keys: entries in insertion order. -/
abbrev Dict := List (String × Value)

/-- Python `d[k]` / `d.get(k)`: value of the first entry with key `k`. -/
def dictGet : Dict → String → Option Value
  | [], _ => none
  | (k, v) :: rest, key => if k = key then some v else dictGet rest key

/-- Python `d.get(k, default)`. -/
def dictGetD (d : Dict) (key : String) (dflt : Value) : Value :=
  (dictGet d key).getD dflt

/-- Python `k in d`. -/
def dictContains (d : Dict) (key : String) : Bool :=
  (dictGet d key).isSome

/-- Python `d[k] = v`: replace the value of an existing entry in place,
otherwise append a new entry. -/
def dictAssign : Dict → String → Value → Dict
  | [], key, val => [(key, val)]
  | (k, v) :: rest, key, val =>
    if k = key then (k, val) :: rest else (k, v) :: dictAssign rest key val

/-- Python `list(d.keys())`. -/
def dictKeys (d : Dict) : List String := d.map Prod.fst

/-!
## Well-formedness: tree-shaped mappings

Real Python dicts never contain duplicate keys.  `dictWF` states this
recursively for every mapping node of a value tree.
-/

mutual

/-- Every mapping node of the value has pairwise distinct keys. -/
def valueWF : Value → Bool
  | Value.dict d => dictWF d
  | Value.list xs => listWF xs
  | _ => true

/-- Keys pairwise distinct, all stored values well-formed. -/
def dictWF : Dict → Bool
  | [] => true
  | (k, v) :: rest => !(dictContains rest k) && valueWF v && dictWF rest

/-- All elements well-formed. -/
def listWF : List Value → Bool
  | [] => true
  | v :: rest => valueWF v && listWF rest

end

/-!
## Merge Engine (manager.py, `recursive_merge`)

```python
def recursive_merge(base: Dict, override: Dict) -> Dict:
    merged = base.copy()
    for key, value in override.items():
        if key in merged and isinstance(merged[key], dict) and isinstance(value, dict):
            merged[key] = recursive_merge(merged[key], value)
        else:
            merged[key] = value
    return merged
```

The accumulator `merged` starts as a copy of `base` and the loop is a fold
over `override`'s entries; the function below recurses over the remaining
override entries with `merged` as first argument.  The guard
`key in merged and isinstance(merged[key], dict)` is exactly
`dictGet merged key = some (Value.dict _)`.
-/

def recursive_merge : Dict → Dict → Dict
  | merged, [] => merged
  | merged, (key, val) :: rest =>
    match dictGet merged key, val with
    | some (Value.dict sub1), Value.dict sub2 =>
      recursive_merge (dictAssign merged key (Value.dict (recursive_merge sub1 sub2))) rest
    | _, _ => recursive_merge (dictAssign merged key val) rest
termination_by _ ov => sizeOf ov
decreasing_by all_goals (simp <;> omega)

/-!
## Loading / environment injection (manager.py, `get_config_for_env`)

File handling is an external collaborator; the loaded base and overlay
documents are parameters.  The function merges them and then executes
`final_config['environment'] = env`.
-/

def get_config_for_env (env : String) (base_config env_config : Dict) : Dict :=
  dictAssign (recursive_merge base_config env_config) "environment" (Value.str env)

/-!
## Schema Validator (schema.py)

`EnvironmentConfig(**config)` runs pydantic v1 validation: fields are
validated in declaration order (`environment`, `database`, `api_service`),
all errors are collected, and scalar fields use pydantic v1's lax
coercion:

* `str` fields accept `str` and stringify `int`/`bool`
  (`bool` is an `int` subclass in Python, so `str(True) = "True"`);
* `int` fields accept `int`, booleans (`int(True) = 1`), and strings that
  parse as a Python integer literal (optional surrounding whitespace,
  optional sign, digits with single underscores between digits);
* `bool` fields accept `bool`, the ints `0`/`1`, and (case-insensitively)
  the strings in pydantic's `BOOL_TRUE`/`BOOL_FALSE` sets.

Error messages follow pydantic v1's texts, with apostrophes/brace
renderings of the allowed-set reprs elided since no behaviour depends on
them.
-/

/-- A validation error: dotted location plus message,
as one element of pydantic's `e.errors()`. -/
structure VErr where
  loc : List String
  msg : String
deriving Repr, DecidableEq

/-- Digits of a Python int literal after the sign: digit
(optionally separated by single underscores between digits). -/
def pyDigitsCore : Nat → List Char → Option Nat
  | acc, [] => some acc
  | acc, '_' :: c :: rest =>
    if c.isDigit then pyDigitsCore (acc * 10 + (c.toNat - 48)) rest else none
  | acc, c :: rest =>
    if c.isDigit then pyDigitsCore (acc * 10 + (c.toNat - 48)) rest else none

/-- Python `int(s)` on the character list after whitespace stripping and
sign handling: at least one digit, underscores only between digits. -/
def pyParseDigits : List Char → Option Nat
  | [] => none
  | c :: rest => if c.isDigit then pyDigitsCore (c.toNat - 48) rest else none

/-- Strip leading and trailing whitespace (Python `str.strip()` on the
ASCII whitespace that can reach this code). -/
def pyStripChars (cs : List Char) : List Char :=
  ((cs.dropWhile Char.isWhitespace).reverse.dropWhile Char.isWhitespace).reverse

/-- Python `int(s)` for a string: strip whitespace, optional `+`/`-` sign,
then digits (with single underscores between digits). -/
def pyIntOfStr (s : String) : Option Int :=
  match pyStripChars s.data with
  | '+' :: rest => (pyParseDigits rest).map Int.ofNat
  | '-' :: rest => (pyParseDigits rest).map (fun n => -(Int.ofNat n))
  | cs => (pyParseDigits cs).map Int.ofNat

/-- pydantic v1 `int_validator`: ints pass through, bools coerce via
`int(True) = 1`, strings via Python `int(s)`; everything else fails. -/
def coerceInt : Value → Option Int
  | Value.int n => some n
  | Value.bool b => some (if b then 1 else 0)
  | Value.str s => pyIntOfStr s
  | _ => none

/-- pydantic v1 `bool_validator`: `BOOL_TRUE = {1, "1", "on", "t", "true",
"y", "yes"}`, `BOOL_FALSE = {0, "0", "off", "f", "false", "n", "no"}`,
strings compared lowercased. -/
def coerceBool : Value → Option Bool
  | Value.bool b => some b
  | Value.int n => if n = 1 then some true else if n = 0 then some false else none
  | Value.str s =>
    let t := s.toLower
    if t = "1" || t = "on" || t = "t" || t = "true" || t = "y" || t = "yes" then
      some true
    else if t = "0" || t = "off" || t = "f" || t = "false" || t = "n" || t = "no" then
      some false
    else none
  | _ => none

/-- pydantic v1 `str_validator`: strings pass through, ints (and bools,
which are ints) stringify; lists/dicts/None fail. -/
def coerceStr : Value → Option String
  | Value.str s => some s
  | Value.int n => some (toString n)
  | Value.bool b => some (if b then "True" else "False")
  | _ => none

/-- schema.py `ALLOWED_INSTANCE_TYPES`. -/
def ALLOWED_INSTANCE_TYPES : List String :=
  ["t3.small", "t3.medium", "t3.large", "m5.large"]

/-- schema.py `ALLOWED_DB_ENGINES`. -/
def ALLOWED_DB_ENGINES : List String := ["postgres", "mysql"]

/-- schema.py `DatabaseConfig` (the validated record). -/
structure DatabaseConfig where
  engine : String
  backup_retention : Int
  publicly_accessible : Bool
deriving Repr, DecidableEq

/-- schema.py `ComputeConfig` (the validated record). -/
structure ComputeConfig where
  instance_type : String
  replicas : Int
deriving Repr, DecidableEq

/-- schema.py `EnvironmentConfig` (the validated record; `environment` is
carried for the safety validator and excluded from `.dict()` output). -/
structure EnvironmentConfig where
  environment : String
  database : DatabaseConfig
  api_service : ComputeConfig
deriving Repr, DecidableEq

/-- Errors of a single-error field result. -/
def errList1 {α : Type} : Except VErr α → List VErr
  | Except.ok _ => []
  | Except.error e => [e]

/-- Errors of a multi-error field result. -/
def errListN {α : Type} : Except (List VErr) α → List VErr
  | Except.ok _ => []
  | Except.error es => es

/-- `Except` to `Option` (pydantic `values` holds only fields that
validated successfully). -/
def exToOption {ε α : Type} : Except ε α → Option α
  | Except.ok a => some a
  | Except.error _ => none

/-- Did validation succeed? -/
def exOk {ε α : Type} : Except ε α → Bool
  | Except.ok _ => true
  | Except.error _ => false

/-- Combine two field results, collecting per-field errors in declaration
order (pydantic validates every field and gathers all errors). -/
def fields2 {α β δ : Type} (mk : α → β → δ) (a : Except VErr α) (b : Except VErr β) :
    Except (List VErr) δ :=
  match a, b with
  | Except.ok x, Except.ok y => Except.ok (mk x y)
  | _, _ => Except.error (errList1 a ++ errList1 b)

/-- Combine three field results, collecting per-field errors in
declaration order. -/
def fields3 {α β γ δ : Type} (mk : α → β → γ → δ) (a : Except VErr α)
    (b : Except VErr β) (c : Except VErr γ) : Except (List VErr) δ :=
  match a, b, c with
  | Except.ok x, Except.ok y, Except.ok z => Except.ok (mk x y z)
  | _, _, _ => Except.error (errList1 a ++ errList1 b ++ errList1 c)

/-- `engine: Literal["postgres", "mysql"]` — membership, no coercion. -/
def dbEngineField (d : Dict) : Except VErr String :=
  match dictGet d "engine" with
  | none => Except.error ⟨["database", "engine"], "field required"⟩
  | some (Value.str s) =>
    if s = "postgres" || s = "mysql" then Except.ok s
    else Except.error ⟨["database", "engine"],
      "unexpected value; permitted: postgres, mysql"⟩
  | some _ => Except.error ⟨["database", "engine"],
      "unexpected value; permitted: postgres, mysql"⟩

/-- `backup_retention: int` — int coercion. -/
def dbRetentionField (d : Dict) : Except VErr Int :=
  match dictGet d "backup_retention" with
  | none => Except.error ⟨["database", "backup_retention"], "field required"⟩
  | some v =>
    match coerceInt v with
    | some n => Except.ok n
    | none => Except.error ⟨["database", "backup_retention"],
        "value is not a valid integer"⟩

/-- `publicly_accessible: bool` — bool coercion. -/
def dbPublicField (d : Dict) : Except VErr Bool :=
  match dictGet d "publicly_accessible" with
  | none => Except.error ⟨["database", "publicly_accessible"], "field required"⟩
  | some v =>
    match coerceBool v with
    | some b => Except.ok b
    | none => Except.error ⟨["database", "publicly_accessible"],
        "value is not a valid boolean"⟩

/-- Validation of the `database` submodel: each field of `DatabaseConfig`
in declaration order, errors collected per field.  A non-dict value fails
with pydantic's dict error.  (pydantic would also accept an iterable of
pairs via `dict(value)`; that branch is outside the modelled universe.) -/
def parseDatabase : Value → Except (List VErr) DatabaseConfig
  | Value.dict d => fields3 DatabaseConfig.mk (dbEngineField d) (dbRetentionField d) (dbPublicField d)
  | _ => Except.error [⟨["database"], "value is not a valid dict"⟩]

/-- `instance_type: str` with the custom membership validator
(`validate_instance_type` raises unless the coerced string is in
`ALLOWED_INSTANCE_TYPES`). -/
def computeInstanceField (d : Dict) : Except VErr String :=
  match dictGet d "instance_type" with
  | none => Except.error ⟨["api_service", "instance_type"], "field required"⟩
  | some v =>
    match coerceStr v with
    | some s =>
      if ALLOWED_INSTANCE_TYPES.contains s then Except.ok s
      else Except.error ⟨["api_service", "instance_type"],
        "Instance type is not in allowed list"⟩
    | none => Except.error ⟨["api_service", "instance_type"], "str type expected"⟩

/-- `replicas: int` — int coercion. -/
def computeReplicasField (d : Dict) : Except VErr Int :=
  match dictGet d "replicas" with
  | none => Except.error ⟨["api_service", "replicas"], "field required"⟩
  | some v =>
    match coerceInt v with
    | some n => Except.ok n
    | none => Except.error ⟨["api_service", "replicas"],
        "value is not a valid integer"⟩

/-- Validation of the `api_service` submodel (`ComputeConfig`). -/
def parseCompute : Value → Except (List VErr) ComputeConfig
  | Value.dict d => fields2 ComputeConfig.mk (computeInstanceField d) (computeReplicasField d)
  | _ => Except.error [⟨["api_service"], "value is not a valid dict"⟩]

/-- schema.py `validate_prod_database_safety`: runs only after `database`
validated structurally; `values.get('environment')` is `none` when the
`environment` field itself failed.  R1 is checked first and raising ends
the validator, so at most one rule message is ever produced. -/
def validate_prod_database_safety (envOpt : Option String) (v : DatabaseConfig) :
    Except (List VErr) DatabaseConfig :=
  if envOpt = some "prod" ∧ v.publicly_accessible = true then
    Except.error [⟨["database"], "Prod database *must not* be publicly accessible."⟩]
  else if envOpt = some "prod" ∧ v.backup_retention < 30 then
    Except.error [⟨["database"],
      "Prod backup_retention must be >= 30, found " ++ toString v.backup_retention ++ "."⟩]
  else Except.ok v

/-- The `environment: str` field. -/
def envField (config : Dict) : Except VErr String :=
  match dictGet config "environment" with
  | none => Except.error ⟨["environment"], "field required"⟩
  | some v =>
    match coerceStr v with
    | some s => Except.ok s
    | none => Except.error ⟨["environment"], "str type expected"⟩

/-- The `database: DatabaseConfig` field: structural validation of the
submodel, then — only on structural success — the safety validator, with
`values.get('environment')` from the already-validated fields. -/
def databaseField (config : Dict) (envOpt : Option String) :
    Except (List VErr) DatabaseConfig :=
  match dictGet config "database" with
  | none => Except.error [⟨["database"], "field required"⟩]
  | some v =>
    match parseDatabase v with
    | Except.ok db => validate_prod_database_safety envOpt db
    | Except.error es => Except.error es

/-- The `api_service: ComputeConfig` field. -/
def apiServiceField (config : Dict) : Except (List VErr) ComputeConfig :=
  match dictGet config "api_service" with
  | none => Except.error [⟨["api_service"], "field required"⟩]
  | some v => parseCompute v

/-- Combine the three top-level field results: success only when all
succeed, otherwise all collected errors in field declaration order. -/
def combineTop (envE : Except VErr String) (dbE : Except (List VErr) DatabaseConfig)
    (apiE : Except (List VErr) ComputeConfig) : Except (List VErr) EnvironmentConfig :=
  match envE, dbE, apiE with
  | Except.ok e, Except.ok db, Except.ok api => Except.ok ⟨e, db, api⟩
  | _, _, _ => Except.error (errList1 envE ++ errListN dbE ++ errListN apiE)

/-- `EnvironmentConfig(**config)`: pydantic v1 validation of the merged
configuration.  Extra keys are ignored; fields validate in declaration
order; all field errors are collected into one list. -/
def validateEnvironmentConfig (config : Dict) : Except (List VErr) EnvironmentConfig :=
  combineTop (envField config)
    (databaseField config (exToOption (envField config)))
    (apiServiceField config)

/-- manager.py `validate_config`: true iff `EnvironmentConfig(**config)`
does not raise (console reporting is an external collaborator). -/
def validate_config (config : Dict) : Bool :=
  exOk (validateEnvironmentConfig config)

/-!
## Renderer (manager.py, `generate_tfvars`)

`EnvironmentConfig(**config).dict(exclude={'environment'})` yields the
plain dict of the validated model without the environment tag, sections
and fields in declaration order.
-/

/-- `.dict(exclude={'environment'})` of the validated model. -/
def envConfigDict (v : EnvironmentConfig) : Dict :=
  [("database", Value.dict
      [("engine", Value.str v.database.engine),
       ("backup_retention", Value.int v.database.backup_retention),
       ("publicly_accessible", Value.bool v.database.publicly_accessible)]),
   ("api_service", Value.dict
      [("instance_type", Value.str v.api_service.instance_type),
       ("replicas", Value.int v.api_service.replicas)])]

/-- Python `str(value)` for the scalars that can appear in a validated
config (ints; the other constructors cannot occur there and get Python's
spelling where one exists). -/
def pyStr : Value → String
  | Value.int n => toString n
  | Value.str s => s
  | Value.bool b => if b then "True" else "False"
  | Value.null => "None"
  | Value.list _ => "<list>"
  | Value.dict _ => "<dict>"

/-- The per-value HCL formatting of the renderer loop: strings quoted,
booleans lowercased, anything else via `str(value)`. -/
def formatHCL : Value → String
  | Value.str s => "\"" ++ s ++ "\""
  | Value.bool b => if b then "true" else "false"
  | v => pyStr v

/-- The renderer loop body: one line `{resource}_{field} = {value}` per
field of a mapping section, and `{key} = {str(value)}` for a top-level
non-mapping value. -/
def tfvarsLines : Dict → List String
  | [] => []
  | (resource_name, Value.dict fields) :: rest =>
    fields.map (fun p => resource_name ++ "_" ++ p.1 ++ " = " ++ formatHCL p.2)
      ++ tfvarsLines rest
  | (resource_name, v) :: rest =>
    (resource_name ++ " = " ++ pyStr v) :: tfvarsLines rest

/-- The rendered file content for a validated config: the lines joined
with newlines (`"\n".join(tfvars_content)`). -/
def render (v : EnvironmentConfig) : String :=
  String.intercalate "\n" (tfvarsLines (envConfigDict v))

/-- manager.py `generate_tfvars`: re-validates the config (the
`EnvironmentConfig(**config)` call raises before the output file is
opened), renders, and returns output path plus file content. -/
def generate_tfvars (env : String) (config : Dict) :
    Except (List VErr) (String × String) :=
  match validateEnvironmentConfig config with
  | Except.ok v => Except.ok (env ++ ".tfvars", render v)
  | Except.error es => Except.error es

/-- The `generate` branch of manager.py `main`: validate first and only on
success call `generate_tfvars`.  The result is the file written for this
environment: `none` means no file is produced or overwritten. -/
def mainGenerate (env : String) (config : Dict) : Option (String × String) :=
  if validate_config config then
    match generate_tfvars env config with
    | Except.ok out => some out
    | Except.error _ => none
  else none

/-!
## Differ (manager.py, `run_diff` and its nested `flatten_dict`)

`flatten_dict` walks the mapping depth first, joins paths with `_`, and
assigns terminal (non-mapping) values into the flat dict; `items.update`
on a sub-flattening is the same assignment sequence, so the accumulator is
threaded through.
-/

/-- `flatten_dict(d, parent_key)` threaded over an accumulator `acc`
(the `items` dict being built). -/
def flattenAux : String → Dict → Dict → Dict
  | _, acc, [] => acc
  | parent, acc, (k, v) :: rest =>
    let newKey := if parent = "" then k else parent ++ "_" ++ k
    match v with
    | Value.dict sub => flattenAux parent (flattenAux newKey acc sub) rest
    | _ => flattenAux parent (dictAssign acc newKey v) rest
termination_by _ _ d => sizeOf d
decreasing_by all_goals (simp <;> omega)

/-- manager.py `flatten_dict(d)` with the default arguments. -/
def flatten_dict (d : Dict) : Dict := flattenAux "" [] d

/-!
Python equality (`==`) on the modelled values.  Booleans are ints in
Python, so `True == 1` and `False == 0`; no other cross-constructor pair
is equal.  Lists compare elementwise; dicts compare as maps (the dict
case matches Python's algorithm on the duplicate-free dicts Python can
build).
-/
mutual

def pyEq : Value → Value → Bool
  | Value.str a, Value.str b => a = b
  | Value.int a, Value.int b => a = b
  | Value.bool a, Value.bool b => a = b
  | Value.int a, Value.bool b => a = (if b then 1 else 0)
  | Value.bool a, Value.int b => (if a then (1 : Int) else 0) = b
  | Value.null, Value.null => true
  | Value.list xs, Value.list ys => pyListEq xs ys
  | Value.dict d1, Value.dict d2 => (d1.length = d2.length) && pyDictSub d1 d2
  | _, _ => false
termination_by a _ => sizeOf a
decreasing_by all_goals simp

def pyListEq : List Value → List Value → Bool
  | [], [] => true
  | x :: xs, y :: ys => pyEq x y && pyListEq xs ys
  | _, _ => false
termination_by xs _ => sizeOf xs
decreasing_by all_goals (simp <;> omega)

def pyDictSub : Dict → Dict → Bool
  | [], _ => true
  | (k, v) :: rest, d2 =>
    (match dictGet d2 k with
     | some v2 => pyEq v v2
     | none => false) && pyDictSub rest d2
termination_by d1 _ => sizeOf d1
decreasing_by all_goals (simp <;> omega)

end

/-- The sentinel for a key missing from one side. -/
def MISSING : Value := Value.str "<<<MISSING>>>"

/-- Insert a key into a strictly sorted duplicate-free list, keeping it
strictly sorted and duplicate-free. -/
def insertKey (k : String) : List String → List String
  | [] => [k]
  | x :: xs => if k < x then k :: x :: xs else if k = x then x :: xs else x :: insertKey k xs

/-- Python `sorted(set(ks))`: the strictly sorted duplicate-free list with
the same members. -/
def sortedKeys (ks : List String) : List String := ks.foldr insertKey []

/-- One iteration of the diff loop: skip the `environment` tag, look the
key up on both sides with the `<<<MISSING>>>` default, report the key
exactly when the two values differ under Python `!=`. -/
def diffEntry (flat1 flat2 : Dict) (key : String) : Option (String × Value × Value) :=
  if key = "environment" then none
  else
    let val1 := dictGetD flat1 key MISSING
    let val2 := dictGetD flat2 key MISSING
    if pyEq val1 val2 then none else some (key, val1, val2)

/-- The diff loop of manager.py `run_diff` on two already-resolved
configurations: flatten both, walk `sorted(set(keys1 + keys2))` and run
the loop body on every key.  (Loading and console printing are external
collaborators; the returned list is the ordered sequence of reported
differences.) -/
def run_diff (config1 config2 : Dict) : List (String × Value × Value) :=
  let flat1 := flatten_dict config1
  let flat2 := flatten_dict config2
  (sortedKeys (dictKeys flat1 ++ dictKeys flat2)).filterMap (diffEntry flat1 flat2)

/-!
## Reference merge definition (for the refinement claim about
`recursive_merge`)

Formalised from the claim's words, not from the source: the result starts
from `base`; for each key of `overlay`, if the key is present in **base**
and both the base value and the overlay value are mappings, the stored
value is the recursive merge of the two, otherwise it is exactly the
overlay value.
-/

/-- Worker: `base` is the fixed mapping whose values decide recursion,
`acc` is the result being built (starting from `base` itself). -/
def mergeSpecAux : Dict → Dict → Dict → Dict
  | _, acc, [] => acc
  | base, acc, (key, val) :: rest =>
    match dictGet base key, val with
    | some (Value.dict b), Value.dict o =>
      mergeSpecAux base (dictAssign acc key (Value.dict (mergeSpecAux b b o))) rest
    | _, _ => mergeSpecAux base (dictAssign acc key val) rest
termination_by _ _ ov => sizeOf ov
decreasing_by all_goals (simp <;> omega)

/-- The reference recursive merge, per the claim's description. -/
def merge_spec (base overlay : Dict) : Dict := mergeSpecAux base base overlay

/-!
## Heap model of `recursive_merge` (for the no-mutation claim)

To state that `merge` never mutates its first argument we model the
Python heap: every dict is an object in a `Store`, values inside dicts
refer to nested dicts by address (`href`).  `recursive_merge` allocates
`merged = base.copy()` as a fresh object and only ever writes to objects
it allocated itself, so every pre-existing address — in particular the
whole object graph of `base` — is unchanged.  Recursion through the heap
is not structural, so the definition takes fuel; running out of fuel
returns address 0 with the store untouched, and the no-mutation theorem
holds for every fuel value.  (Python lists are also mutable but the merge
never touches list contents, so only dicts need to live on the heap.)
-/

/-- A heap value: scalars and lists inline, nested dicts by address. -/
inductive HValue where
  | hstr (s : String)
  | hint (n : Int)
  | hbool (b : Bool)
  | hnull
  | hlist (xs : List HValue)
  | href (addr : Nat)
deriving Repr

/-- A dict object on the heap: entries in insertion order. -/
abbrev HDict := List (String × HValue)

/-- The heap: object `a` is the dict at index `a`. -/
abbrev Store := List HDict

/-- Read the object at an address (unallocated addresses read as empty,
which the theorems never rely on). -/
def storeGet (s : Store) (a : Nat) : HDict := s.getD a []

/-- Overwrite the object at an address. -/
def storeSet (s : Store) (a : Nat) (d : HDict) : Store := s.set a d

/-- Heap-level `d[k]`. -/
def hdictGet : HDict → String → Option HValue
  | [], _ => none
  | (k, v) :: rest, key => if k = key then some v else hdictGet rest key

/-- Heap-level `d[k] = v`. -/
def hdictAssign : HDict → String → HValue → HDict
  | [], key, val => [(key, val)]
  | (k, v) :: rest, key, val =>
    if k = key then (k, val) :: rest else (k, v) :: hdictAssign rest key val

mutual

/-- `recursive_merge(base, override)` on the heap: copy the base object
into a fresh address, then run the override loop on the copy.
`isinstance(x, dict)` is `x = href _` (references point only to dicts). -/
def rmHeap : Nat → Nat → Nat → Store → Nat × Store
  | 0, _, _, s => (0, s)
  | fuel + 1, b, o, s =>
    let m := s.length
    let s1 := s ++ [storeGet s b]
    rmLoop fuel m (storeGet s o) s1
termination_by fuel _ _ _ => (fuel, 0)

/-- The `for key, value in override.items()` loop writing into the copy
at address `m`. -/
def rmLoop : Nat → Nat → List (String × HValue) → Store → Nat × Store
  | _, m, [], s => (m, s)
  | fuel, m, (k, v) :: rest, s =>
    match hdictGet (storeGet s m) k, v with
    | some (HValue.href a1), HValue.href a2 =>
      let p := rmHeap fuel a1 a2 s
      rmLoop fuel m rest
        (storeSet p.2 m (hdictAssign (storeGet p.2 m) k (HValue.href p.1)))
    | _, _ => rmLoop fuel m rest (storeSet s m (hdictAssign (storeGet s m) k v))
termination_by fuel _ items _ => (fuel, sizeOf items + 1)

end

/-!
## Concrete fixtures (used by witnesses and counterexamples)
-/

/-- A merged configuration with the given environment tag and sections. -/
def mkTopConfig (env : String) (db comp : Value) : Dict :=
  [("environment", Value.str env), ("database", db), ("api_service", comp)]

/-- A structurally valid database section that also satisfies both prod
safety rules. -/
def dbSectionOK : Value :=
  Value.dict [("engine", Value.str "postgres"),
              ("backup_retention", Value.int 45),
              ("publicly_accessible", Value.bool false)]

/-- A database section violating both prod safety rules (publicly
accessible and retention 10 < 30) while structurally valid. -/
def dbSectionBothRules : Value :=
  Value.dict [("engine", Value.str "postgres"),
              ("backup_retention", Value.int 10),
              ("publicly_accessible", Value.bool true)]

/-- A structurally valid compute section. -/
def computeSectionOK : Value :=
  Value.dict [("instance_type", Value.str "t3.medium"),
              ("replicas", Value.int 2)]

/-- A database section with the given `backup_retention` value and the
other two fields valid and prod-safe. -/
def dbSectionWith (v : Value) : Value :=
  Value.dict [("engine", Value.str "postgres"),
              ("backup_retention", v),
              ("publicly_accessible", Value.bool false)]

/-!
## Lemmas
-/

@[simp] theorem dictGet_nil (key : String) : dictGet [] key = none := rfl

@[simp] theorem dictGet_cons (k : String) (v : Value) (rest : Dict) (key : String) :
    dictGet ((k, v) :: rest) key = if k = key then some v else dictGet rest key := rfl

@[simp] theorem dictAssign_nil (key : String) (val : Value) :
    dictAssign [] key val = [(key, val)] := rfl

@[simp] theorem dictAssign_cons (k : String) (v : Value) (rest : Dict) (key : String)
    (val : Value) :
    dictAssign ((k, v) :: rest) key val =
      if k = key then (k, val) :: rest else (k, v) :: dictAssign rest key val := rfl

/-- Looking up the assigned key finds the assigned value. -/
theorem dictGet_assign_self (d : Dict) (key : String) (val : Value) :
    dictGet (dictAssign d key val) key = some val := by
  induction d with
  | nil => simp
  | cons hd tl ih =>
    obtain ⟨k, v⟩ := hd
    by_cases h : k = key <;> simp [h, ih]

/-- Assigning one key leaves lookups of other keys unchanged. -/
theorem dictGet_assign_ne (d : Dict) (key key' : String) (val : Value)
    (h : key ≠ key') : dictGet (dictAssign d key val) key' = dictGet d key' := by
  induction d with
  | nil => simp [h]
  | cons hd tl ih =>
    obtain ⟨k, v⟩ := hd
    by_cases hk : k = key
    · subst hk; simp [h]
    · by_cases hk' : k = key' <;> simp [hk, hk', Ne.symm h, ih]

/-- A successful lookup comes from an entry of the dict. -/
theorem dictGet_mem (d : Dict) (key : String) (v : Value)
    (h : dictGet d key = some v) : (key, v) ∈ d := by
  induction d with
  | nil => simp at h
  | cons hd tl ih =>
    obtain ⟨k, w⟩ := hd
    by_cases hk : k = key
    · subst hk; simp at h; simp [h]
    · simp [hk] at h; exact List.mem_cons_of_mem _ (ih h)

/-!
## C10 — environment injection
-/

/-- C10: for every environment name and every base/overlay pair, the
resolved configuration's top-level `environment` key equals the injected
environment name — the assignment after the merge overwrites any
document-supplied `environment` value, so documents can never influence
which safety rules apply. -/
theorem claim_C10_environment_injection (env : String) (base_config env_config : Dict) :
    dictGet (get_config_for_env env base_config env_config) "environment" =
      some (Value.str env) := by
  unfold get_config_for_env
  exact dictGet_assign_self _ _ _

/-!
## C4 — generate writes iff validation succeeds
-/

/-- C4: the generate command produces the per-environment output artifact
exactly when validation of the merged configuration succeeds, and produces
nothing at all — no file content — when validation fails. -/
theorem claim_C4_generate_iff_valid (env : String) (config : Dict) :
    mainGenerate env config =
      match validateEnvironmentConfig config with
      | Except.ok v => some (env ++ ".tfvars", render v)
      | Except.error _ => none := by
  cases h : validateEnvironmentConfig config <;>
    simp [mainGenerate, validate_config, generate_tfvars, exOk, h]

/-!
## C5 — deterministic rendering, one line per field
-/

/-- C5: rendering a validated config is a pure function of the config
(hence byte-identical across runs) and emits exactly one line
`{resource}_{field} = {value}` per field of the two resource sections,
with strings quoted, booleans as bare lowercase `true`/`false`, and
integers in decimal. -/
theorem claim_C5_render_format (v : EnvironmentConfig) :
    render v =
      String.intercalate "\n"
        ["database_engine = \"" ++ v.database.engine ++ "\"",
         "database_backup_retention = " ++ toString v.database.backup_retention,
         "database_publicly_accessible = " ++
           (if v.database.publicly_accessible then "true" else "false"),
         "api_service_instance_type = \"" ++ v.api_service.instance_type ++ "\"",
         "api_service_replicas = " ++ toString v.api_service.replicas] := by
  simp [render, envConfigDict, tfvarsLines, formatHCL, pyStr, ← String.append_assoc]

/-!
## Lookups in a synthesized top-level configuration
-/

theorem mkTop_env (env : String) (db comp : Value) :
    dictGet (mkTopConfig env db comp) "environment" = some (Value.str env) := rfl

theorem mkTop_db (env : String) (db comp : Value) :
    dictGet (mkTopConfig env db comp) "database" = some db := rfl

theorem mkTop_api (env : String) (db comp : Value) :
    dictGet (mkTopConfig env db comp) "api_service" = some comp := rfl

theorem envField_mkTop (env : String) (db comp : Value) :
    envField (mkTopConfig env db comp) = Except.ok env := rfl

/-!
## C1 — prod-only safety rules
-/

/-- C1: on a merged configuration whose `database` and `api_service`
sections are structurally valid, validation with a non-prod environment
tag always succeeds, and with the tag `"prod"` it fails exactly when the
database is publicly accessible (R1) or its backup retention is below 30
(R2): the two safety rules fire only under the prod tag. -/
theorem claim_C1_prod_safety_rules (config : Dict) (env : String) (db comp : Value)
    (d : DatabaseConfig) (c : ComputeConfig)
    (henv : dictGet config "environment" = some (Value.str env))
    (hdb : dictGet config "database" = some db)
    (hcomp : dictGet config "api_service" = some comp)
    (hd : parseDatabase db = Except.ok d)
    (hc : parseCompute comp = Except.ok c) :
    (env ≠ "prod" → validateEnvironmentConfig config = Except.ok ⟨env, d, c⟩) ∧
    (env = "prod" →
      (exOk (validateEnvironmentConfig config) = false ↔
        (d.publicly_accessible = true ∨ d.backup_retention < 30))) := by
  have henvF : envField config = Except.ok env := by simp [envField, henv, coerceStr]
  have happ : apiServiceField config = Except.ok c := by simp [apiServiceField, hcomp, hc]
  constructor
  · intro hne
    have hdbF : databaseField config (some env) = Except.ok d := by
      simp [databaseField, hdb, hd, validate_prod_database_safety, hne]
    simp [validateEnvironmentConfig, henvF, exToOption, hdbF, happ, combineTop]
  · intro he; subst he
    by_cases hp : d.publicly_accessible = true
    · have hdbF : databaseField config (some "prod") =
          Except.error [⟨["database"], "Prod database *must not* be publicly accessible."⟩] := by
        simp [databaseField, hdb, hd, validate_prod_database_safety, hp]
      simp [validateEnvironmentConfig, henvF, exToOption, hdbF, happ, combineTop, exOk,
        hp, errList1, errListN]
    · by_cases hr : d.backup_retention < 30
      · have hdbF : databaseField config (some "prod") =
            Except.error [⟨["database"],
              "Prod backup_retention must be >= 30, found " ++
                toString d.backup_retention ++ "."⟩] := by
          simp [databaseField, hdb, hd, validate_prod_database_safety, hp, hr]
        simp [validateEnvironmentConfig, henvF, exToOption, hdbF, happ, combineTop, exOk,
          hp, hr, errList1, errListN]
      · have hdbF : databaseField config (some "prod") = Except.ok d := by
          simp [databaseField, hdb, hd, validate_prod_database_safety, hp, hr]
        simp [validateEnvironmentConfig, henvF, exToOption, hdbF, happ, combineTop, exOk,
          hp, hr]

/-- C1 witness: a concrete structurally valid dev configuration passes. -/
theorem claim_C1_prod_safety_rules_witness :
    validateEnvironmentConfig (mkTopConfig "dev" dbSectionOK computeSectionOK) =
      Except.ok ⟨"dev", ⟨"postgres", 45, false⟩, ⟨"t3.medium", 2⟩⟩ :=
  (claim_C1_prod_safety_rules (mkTopConfig "dev" dbSectionOK computeSectionOK) "dev"
    dbSectionOK computeSectionOK ⟨"postgres", 45, false⟩ ⟨"t3.medium", 2⟩
    rfl rfl rfl rfl rfl).1 (by decide)

/-!
## C3 — error collection

Structural violations are all collected, but the safety validator raises
on the first violated rule, so a prod config violating both R1 and R2
yields only the R1 message.
-/

/-- C3 counterexample: this prod configuration violates both safety rules
(`publicly_accessible = true` and `backup_retention = 10 < 30`), yet
validation reports exactly one rule message (R1), not both. -/
theorem claim_C3_counterexample :
    validateEnvironmentConfig (mkTopConfig "prod" dbSectionBothRules computeSectionOK) =
      Except.error [⟨["database"], "Prod database *must not* be publicly accessible."⟩] := rfl

theorem fields2_error_ne_nil {α β δ : Type} {mk : α → β → δ} {a : Except VErr α}
    {b : Except VErr β} {es : List VErr} (h : fields2 mk a b = Except.error es) :
    es ≠ [] := by
  intro he; subst he
  cases a <;> cases b <;> simp_all [fields2, errList1]

theorem fields3_error_ne_nil {α β γ δ : Type} {mk : α → β → γ → δ} {a : Except VErr α}
    {b : Except VErr β} {c : Except VErr γ} {es : List VErr}
    (h : fields3 mk a b c = Except.error es) : es ≠ [] := by
  intro he; subst he
  cases a <;> cases b <;> cases c <;> simp_all [fields3, errList1]

theorem parseDatabase_error_ne_nil {v : Value} {es : List VErr}
    (h : parseDatabase v = Except.error es) : es ≠ [] := by
  intro he; subst he
  cases v <;> simp_all [parseDatabase]
  exact fields3_error_ne_nil h rfl

theorem parseCompute_error_ne_nil {v : Value} {es : List VErr}
    (h : parseCompute v = Except.error es) : es ≠ [] := by
  intro he; subst he
  cases v <;> simp_all [parseCompute]
  exact fields2_error_ne_nil h rfl

theorem safety_error_ne_nil {envOpt : Option String} {db : DatabaseConfig} {es : List VErr}
    (h : validate_prod_database_safety envOpt db = Except.error es) : es ≠ [] := by
  intro he; subst he
  unfold validate_prod_database_safety at h
  split at h
  · simp_all
  · split at h <;> simp_all

theorem databaseField_error_ne_nil {config : Dict} {envOpt : Option String} {es : List VErr}
    (h : databaseField config envOpt = Except.error es) : es ≠ [] := by
  intro he; subst he
  unfold databaseField at h
  split at h
  · simp_all
  · rename_i v hv
    cases hp : parseDatabase v with
    | ok db => rw [hp] at h; exact safety_error_ne_nil h rfl
    | error es' =>
      rw [hp] at h; simp at h; subst h; exact parseDatabase_error_ne_nil hp rfl

theorem apiServiceField_error_ne_nil {config : Dict} {es : List VErr}
    (h : apiServiceField config = Except.error es) : es ≠ [] := by
  intro he; subst he
  unfold apiServiceField at h
  split at h
  · simp_all
  · exact parseCompute_error_ne_nil h rfl

theorem combineTop_error_of_not_ok {envE : Except VErr String}
    {dbE : Except (List VErr) DatabaseConfig} {apiE : Except (List VErr) ComputeConfig}
    (hdb : ∀ es, dbE = Except.error es → es ≠ [])
    (hapi : ∀ es, apiE = Except.error es → es ≠ [])
    (h : exOk (combineTop envE dbE apiE) = false) :
    ∃ e es, combineTop envE dbE apiE = Except.error (e :: es) := by
  cases envE with
  | error e => cases dbE <;> cases apiE <;> exact ⟨e, _, rfl⟩
  | ok env =>
    cases dbE with
    | error es1 =>
      obtain ⟨e, es', he⟩ := List.exists_cons_of_ne_nil (hdb es1 rfl)
      subst he
      cases apiE <;> exact ⟨e, _, rfl⟩
    | ok db =>
      cases apiE with
      | error es2 =>
        obtain ⟨e, es', he⟩ := List.exists_cons_of_ne_nil (hapi es2 rfl)
        subst he
        exact ⟨e, _, rfl⟩
      | ok api => simp [combineTop, exOk] at h

/-- C3 amended: when validation fails it returns a nonempty error list and
no validated config (failure is atomic); structural violations are all
collected — a config missing two required fields yields exactly the two
structural errors — but safety-rule checking stops at the first violated
rule: a prod config violating both R1 and R2 yields only the R1 message. -/
theorem claim_C3_amended :
    (∀ config : Dict, exOk (validateEnvironmentConfig config) = false →
      ∃ e es, validateEnvironmentConfig config = Except.error (e :: es)) ∧
    (∀ (env : String) (n : Int) (b : Bool),
      validateEnvironmentConfig
        (mkTopConfig env
          (Value.dict [("backup_retention", Value.int n),
                       ("publicly_accessible", Value.bool b)])
          (Value.dict [("instance_type", Value.str "t3.small")])) =
        Except.error [⟨["database", "engine"], "field required"⟩,
                      ⟨["api_service", "replicas"], "field required"⟩]) ∧
    (∀ (db comp : Value) (d : DatabaseConfig) (c : ComputeConfig),
      parseDatabase db = Except.ok d → parseCompute comp = Except.ok c →
      d.publicly_accessible = true → d.backup_retention < 30 →
      validateEnvironmentConfig (mkTopConfig "prod" db comp) =
        Except.error [⟨["database"], "Prod database *must not* be publicly accessible."⟩]) := by
  refine ⟨?_, ?_, ?_⟩
  · intro config h
    exact combineTop_error_of_not_ok (fun es he => databaseField_error_ne_nil he)
      (fun es he => apiServiceField_error_ne_nil he) h
  · intro env n b
    simp [validateEnvironmentConfig, envField_mkTop, exToOption, databaseField,
      apiServiceField, mkTop_db, mkTop_api, parseDatabase, parseCompute, fields2, fields3,
      dbEngineField, dbRetentionField, dbPublicField, computeInstanceField,
      computeReplicasField, coerceInt, coerceBool, coerceStr, combineTop, errList1,
      errListN, ALLOWED_INSTANCE_TYPES]
  · intro db comp d c hd hc hp hr
    have happ : apiServiceField (mkTopConfig "prod" db comp) = Except.ok c := by
      simp [apiServiceField, mkTop_api, hc]
    have hdbF : databaseField (mkTopConfig "prod" db comp) (some "prod") =
        Except.error [⟨["database"], "Prod database *must not* be publicly accessible."⟩] := by
      simp [databaseField, mkTop_db, hd, validate_prod_database_safety, hp]
    simp [validateEnvironmentConfig, envField_mkTop, exToOption, hdbF, happ, combineTop,
      errList1, errListN]

/-- C3 witness: a prod database violating both rules (retention 5,
publicly accessible) reports exactly the R1 message. -/
theorem claim_C3_amended_witness :
    validateEnvironmentConfig
      (mkTopConfig "prod"
        (Value.dict [("engine", Value.str "mysql"),
                     ("backup_retention", Value.int 5),
                     ("publicly_accessible", Value.bool true)])
        computeSectionOK) =
      Except.error [⟨["database"], "Prod database *must not* be publicly accessible."⟩] :=
  claim_C3_amended.2.2
    (Value.dict [("engine", Value.str "mysql"),
                 ("backup_retention", Value.int 5),
                 ("publicly_accessible", Value.bool true)])
    computeSectionOK ⟨"mysql", 5, true⟩ ⟨"t3.medium", 2⟩ rfl rfl rfl (by decide)

/-!
## C7 — type checking of required fields (pydantic coerces)
-/

/-- C7 counterexample: `backup_retention` given as the *string* `"29"` is
accepted — pydantic v1 coerces it to the integer 29 — although the claim
requires a structural error for a non-integer value. -/
theorem claim_C7_counterexample :
    validateEnvironmentConfig
      (mkTopConfig "dev" (dbSectionWith (Value.str "29")) computeSectionOK) =
      Except.ok ⟨"dev", ⟨"postgres", 29, false⟩, ⟨"t3.medium", 2⟩⟩ := rfl

theorem dbEngineField_ok_iff (d : Dict) (e : String) :
    dbEngineField d = Except.ok e ↔
      dictGet d "engine" = some (Value.str e) ∧ (e = "postgres" ∨ e = "mysql") := by
  unfold dbEngineField
  cases hg : dictGet d "engine" with
  | none => simp
  | some v =>
    cases v with
    | str s =>
      by_cases hs : s = "postgres" ∨ s = "mysql"
      · have hb : (decide (s = "postgres") || decide (s = "mysql")) = true := by
          rcases hs with h | h <;> simp [h]
        simp only [hb, if_true, Option.some.injEq, Value.str.injEq, Except.ok.injEq]
        constructor
        · rintro rfl
          exact ⟨rfl, hs⟩
        · rintro ⟨rfl, _⟩
          rfl
      · have hb : (decide (s = "postgres") || decide (s = "mysql")) = false := by
          push_neg at hs
          simp [hs.1, hs.2]
        simp only [hb, Bool.false_eq_true, if_false, Option.some.injEq, Value.str.injEq]
        constructor
        · intro h
          exact absurd h (by simp)
        · rintro ⟨rfl, hperm⟩
          exact absurd hperm hs
    | int n => simp
    | bool b => simp
    | null => simp
    | list xs => simp
    | dict entries => simp

theorem dbRetentionField_ok_iff (d : Dict) (n : Int) :
    dbRetentionField d = Except.ok n ↔
      ∃ v, dictGet d "backup_retention" = some v ∧ coerceInt v = some n := by
  unfold dbRetentionField
  cases hg : dictGet d "backup_retention" with
  | none => simp
  | some v =>
    cases hc : coerceInt v with
    | none => simp [hc]
    | some m => simp [hc]

theorem dbPublicField_ok_iff (d : Dict) (b : Bool) :
    dbPublicField d = Except.ok b ↔
      ∃ v, dictGet d "publicly_accessible" = some v ∧ coerceBool v = some b := by
  unfold dbPublicField
  cases hg : dictGet d "publicly_accessible" with
  | none => simp
  | some v =>
    cases hc : coerceBool v with
    | none => simp [hc]
    | some m => simp [hc]

theorem computeInstanceField_ok_iff (c : Dict) (s : String) :
    computeInstanceField c = Except.ok s ↔
      ∃ v, dictGet c "instance_type" = some v ∧ coerceStr v = some s ∧
        ALLOWED_INSTANCE_TYPES.contains s = true := by
  unfold computeInstanceField
  cases hg : dictGet c "instance_type" with
  | none => simp
  | some v =>
    cases hc : coerceStr v with
    | none => simp [hc]
    | some t =>
      by_cases hmem : ALLOWED_INSTANCE_TYPES.contains t = true
      · simp only [hc, hmem, if_true, Option.some.injEq, Except.ok.injEq]
        constructor
        · rintro rfl
          exact ⟨v, rfl, hc, hmem⟩
        · rintro ⟨v', hv', hco, _⟩
          cases hv'
          rw [hc] at hco
          exact (Option.some.injEq _ _).mp hco
      · have hmem' : ALLOWED_INSTANCE_TYPES.contains t = false := by
          simpa using hmem
        simp only [hc, hmem', Bool.false_eq_true, if_false, Option.some.injEq]
        constructor
        · intro h
          exact absurd h (by simp)
        · rintro ⟨v', hv', hco, habs⟩
          cases hv'
          rw [hc, Option.some.injEq] at hco
          rw [← hco, hmem'] at habs
          exact Bool.noConfusion habs

theorem computeReplicasField_ok_iff (c : Dict) (n : Int) :
    computeReplicasField c = Except.ok n ↔
      ∃ v, dictGet c "replicas" = some v ∧ coerceInt v = some n := by
  unfold computeReplicasField
  cases hg : dictGet c "replicas" with
  | none => simp
  | some v =>
    cases hc : coerceInt v with
    | none => simp [hc]
    | some m => simp [hc]

theorem parseDatabase_ok_iff (d : Dict) (e : String) (n : Int) (b : Bool) :
    parseDatabase (Value.dict d) = Except.ok ⟨e, n, b⟩ ↔
      dbEngineField d = Except.ok e ∧ dbRetentionField d = Except.ok n ∧
        dbPublicField d = Except.ok b := by
  unfold parseDatabase fields3
  cases h1 : dbEngineField d <;> cases h2 : dbRetentionField d <;>
    cases h3 : dbPublicField d <;> simp [h1, h2, h3, DatabaseConfig.mk.injEq]

theorem parseCompute_ok_iff (c : Dict) (s : String) (r : Int) :
    parseCompute (Value.dict c) = Except.ok ⟨s, r⟩ ↔
      computeInstanceField c = Except.ok s ∧ computeReplicasField c = Except.ok r := by
  unfold parseCompute fields2
  cases h1 : computeInstanceField c <;> cases h2 : computeReplicasField c <;>
    simp [h1, h2, ComputeConfig.mk.injEq]

theorem parseDatabase_err_engine (d : Dict) (err : VErr)
    (h : dbEngineField d = Except.error err) :
    ∃ es, parseDatabase (Value.dict d) = Except.error es ∧ err ∈ es := by
  unfold parseDatabase fields3
  cases h2 : dbRetentionField d <;> cases h3 : dbPublicField d <;>
    simp [h, h2, h3, errList1]

theorem parseDatabase_err_retention (d : Dict) (err : VErr)
    (h : dbRetentionField d = Except.error err) :
    ∃ es, parseDatabase (Value.dict d) = Except.error es ∧ err ∈ es := by
  unfold parseDatabase fields3
  cases h1 : dbEngineField d <;> cases h3 : dbPublicField d <;>
    simp [h, h1, h3, errList1]

theorem parseDatabase_err_public (d : Dict) (err : VErr)
    (h : dbPublicField d = Except.error err) :
    ∃ es, parseDatabase (Value.dict d) = Except.error es ∧ err ∈ es := by
  unfold parseDatabase fields3
  cases h1 : dbEngineField d <;> cases h2 : dbRetentionField d <;>
    simp [h, h1, h2, errList1]

theorem parseCompute_err_instance (c : Dict) (err : VErr)
    (h : computeInstanceField c = Except.error err) :
    ∃ es, parseCompute (Value.dict c) = Except.error es ∧ err ∈ es := by
  unfold parseCompute fields2
  cases h2 : computeReplicasField c <;> simp [h, h2, errList1]

theorem parseCompute_err_replicas (c : Dict) (err : VErr)
    (h : computeReplicasField c = Except.error err) :
    ∃ es, parseCompute (Value.dict c) = Except.error es ∧ err ∈ es := by
  unfold parseCompute fields2
  cases h1 : computeInstanceField c <;> simp [h, h1, errList1]

/-- C7 amended: structural validation of the sections does not enforce
declared primitive types as such — pydantic v1 coerces.  Per field:
`backup_retention`, `replicas` and `publicly_accessible` are accepted
exactly when the present value int- resp. bool-coerces; `engine` is
accepted exactly when it is literally the string `postgres` or `mysql`
(no coercion); `instance_type` is accepted exactly when it str-coerces
*and* the coerced string is in the allowed list (so a wrong-typed but
coercible value such as the int 5, coerced to `"5"`, is still rejected —
by the allowed-list validator, not by a type check).  Whenever a present
value fails its field's check, the section's validation fails with a
structural error located at exactly that field. -/
theorem claim_C7_amended :
    (∀ (d : Dict) (e : String) (n : Int) (b : Bool),
      parseDatabase (Value.dict d) = Except.ok ⟨e, n, b⟩ ↔
        (dictGet d "engine" = some (Value.str e) ∧ (e = "postgres" ∨ e = "mysql")) ∧
        (∃ v, dictGet d "backup_retention" = some v ∧ coerceInt v = some n) ∧
        (∃ v, dictGet d "publicly_accessible" = some v ∧ coerceBool v = some b)) ∧
    (∀ (c : Dict) (s : String) (r : Int),
      parseCompute (Value.dict c) = Except.ok ⟨s, r⟩ ↔
        (∃ v, dictGet c "instance_type" = some v ∧ coerceStr v = some s ∧
          ALLOWED_INSTANCE_TYPES.contains s = true) ∧
        (∃ v, dictGet c "replicas" = some v ∧ coerceInt v = some r)) ∧
    (∀ (d : Dict) (v : Value), dictGet d "engine" = some v →
      (∀ s, v = Value.str s → ¬(s = "postgres" ∨ s = "mysql")) →
      ∃ es, parseDatabase (Value.dict d) = Except.error es ∧
        (⟨["database", "engine"], "unexpected value; permitted: postgres, mysql"⟩ : VErr) ∈ es) ∧
    (∀ (d : Dict) (v : Value), dictGet d "backup_retention" = some v → coerceInt v = none →
      ∃ es, parseDatabase (Value.dict d) = Except.error es ∧
        (⟨["database", "backup_retention"], "value is not a valid integer"⟩ : VErr) ∈ es) ∧
    (∀ (d : Dict) (v : Value), dictGet d "publicly_accessible" = some v → coerceBool v = none →
      ∃ es, parseDatabase (Value.dict d) = Except.error es ∧
        (⟨["database", "publicly_accessible"], "value is not a valid boolean"⟩ : VErr) ∈ es) ∧
    (∀ (c : Dict) (v : Value), dictGet c "instance_type" = some v → coerceStr v = none →
      ∃ es, parseCompute (Value.dict c) = Except.error es ∧
        (⟨["api_service", "instance_type"], "str type expected"⟩ : VErr) ∈ es) ∧
    (∀ (c : Dict) (v : Value) (s : String), dictGet c "instance_type" = some v →
      coerceStr v = some s → ALLOWED_INSTANCE_TYPES.contains s = false →
      ∃ es, parseCompute (Value.dict c) = Except.error es ∧
        (⟨["api_service", "instance_type"], "Instance type is not in allowed list"⟩ : VErr) ∈ es) ∧
    (∀ (c : Dict) (v : Value), dictGet c "replicas" = some v → coerceInt v = none →
      ∃ es, parseCompute (Value.dict c) = Except.error es ∧
        (⟨["api_service", "replicas"], "value is not a valid integer"⟩ : VErr) ∈ es) := by
  refine ⟨?_, ?_, ?_, ?_, ?_, ?_, ?_, ?_⟩
  · intro d e n b
    rw [parseDatabase_ok_iff, dbEngineField_ok_iff, dbRetentionField_ok_iff,
      dbPublicField_ok_iff]
  · intro c s r
    rw [parseCompute_ok_iff, computeInstanceField_ok_iff, computeReplicasField_ok_iff]
  · intro d v hg hbad
    refine parseDatabase_err_engine d _ ?_
    cases v with
    | str s =>
      have hs : ¬(s = "postgres" ∨ s = "mysql") := hbad s rfl
      have hb : (decide (s = "postgres") || decide (s = "mysql")) = false := by
        push_neg at hs
        simp [hs.1, hs.2]
      simp [dbEngineField, hg, hb]
    | int n => simp [dbEngineField, hg]
    | bool b => simp [dbEngineField, hg]
    | null => simp [dbEngineField, hg]
    | list xs => simp [dbEngineField, hg]
    | dict entries => simp [dbEngineField, hg]
  · intro d v hg hcoe
    refine parseDatabase_err_retention d _ ?_
    simp [dbRetentionField, hg, hcoe]
  · intro d v hg hcoe
    refine parseDatabase_err_public d _ ?_
    simp [dbPublicField, hg, hcoe]
  · intro c v hg hcoe
    refine parseCompute_err_instance c _ ?_
    simp [computeInstanceField, hg, hcoe]
  · intro c v s hg hcoe hmem
    refine parseCompute_err_instance c _ ?_
    simp [computeInstanceField, hg, hcoe, hmem]
    simpa using hmem
  · intro c v hg hcoe
    refine parseCompute_err_replicas c _ ?_
    simp [computeReplicasField, hg, hcoe]

/-- C7 witness: a non-numeric string for `backup_retention` is rejected
with the integer structural error, and the wrong-typed but str-coercible
int 5 for `instance_type` is rejected by the allowed-list validator. -/
theorem claim_C7_amended_witness :
    (∃ es, parseDatabase (Value.dict [("engine", Value.str "postgres"),
        ("backup_retention", Value.str "4x"),
        ("publicly_accessible", Value.bool false)]) = Except.error es ∧
      (⟨["database", "backup_retention"], "value is not a valid integer"⟩ : VErr) ∈ es) ∧
    (∃ es, parseCompute (Value.dict [("instance_type", Value.int 5),
        ("replicas", Value.int 2)]) = Except.error es ∧
      (⟨["api_service", "instance_type"], "Instance type is not in allowed list"⟩ : VErr) ∈ es) :=
  ⟨claim_C7_amended.2.2.2.1 _ (Value.str "4x") rfl rfl,
   claim_C7_amended.2.2.2.2.2.2.1 _ (Value.int 5) "5" rfl rfl rfl⟩

/-!
## C8 — no non-negativity constraint on backup_retention
-/

/-- C8 counterexample: a configuration with the negative
`backup_retention = -5` passes validation in the dev environment, although
the claim requires every negative value to fail in every environment. -/
theorem claim_C8_counterexample :
    validateEnvironmentConfig
      (mkTopConfig "dev" (dbSectionWith (Value.int (-5))) computeSectionOK) =
      Except.ok ⟨"dev", ⟨"postgres", -5, false⟩, ⟨"t3.medium", 2⟩⟩ := rfl

/-- C8 amended: validation accepts any integer `backup_retention`
regardless of sign; a negative value fails only when the environment tag
is `"prod"`, through safety rule R2 (`backup_retention < 30`), and passes
in every non-prod environment. -/
theorem claim_C8_amended (env : String) (n : Int) (comp : Value) (c : ComputeConfig)
    (hc : parseCompute comp = Except.ok c) :
    (env ≠ "prod" →
      validateEnvironmentConfig (mkTopConfig env (dbSectionWith (Value.int n)) comp) =
        Except.ok ⟨env, ⟨"postgres", n, false⟩, c⟩) ∧
    (n < 30 →
      validateEnvironmentConfig (mkTopConfig "prod" (dbSectionWith (Value.int n)) comp) =
        Except.error [⟨["database"],
          "Prod backup_retention must be >= 30, found " ++ toString n ++ "."⟩]) := by
  constructor
  · intro hne
    have happ : apiServiceField (mkTopConfig env (dbSectionWith (Value.int n)) comp) =
        Except.ok c := by
      simp [apiServiceField, mkTop_api, hc]
    have hdbF : databaseField (mkTopConfig env (dbSectionWith (Value.int n)) comp)
        (some env) = Except.ok ⟨"postgres", n, false⟩ := by
      simp [databaseField, mkTop_db, parseDatabase, dbSectionWith, fields3, dbEngineField,
        dbRetentionField, dbPublicField, coerceInt, coerceBool,
        validate_prod_database_safety, hne]
    simp [validateEnvironmentConfig, envField_mkTop, exToOption, hdbF, happ, combineTop]
  · intro hn
    have happ : apiServiceField (mkTopConfig "prod" (dbSectionWith (Value.int n)) comp) =
        Except.ok c := by
      simp [apiServiceField, mkTop_api, hc]
    have hdbF : databaseField (mkTopConfig "prod" (dbSectionWith (Value.int n)) comp)
        (some "prod") =
        Except.error [⟨["database"],
          "Prod backup_retention must be >= 30, found " ++ toString n ++ "."⟩] := by
      simp [databaseField, mkTop_db, parseDatabase, dbSectionWith, fields3, dbEngineField,
        dbRetentionField, dbPublicField, coerceInt, coerceBool,
        validate_prod_database_safety, hn]
    simp [validateEnvironmentConfig, envField_mkTop, exToOption, hdbF, happ, combineTop,
      errList1, errListN]

/-- C8 witness: retention −7 passes in dev and fails in prod via R2. -/
theorem claim_C8_amended_witness :
    validateEnvironmentConfig
        (mkTopConfig "dev" (dbSectionWith (Value.int (-7))) computeSectionOK) =
      Except.ok ⟨"dev", ⟨"postgres", -7, false⟩, ⟨"t3.medium", 2⟩⟩ ∧
    validateEnvironmentConfig
        (mkTopConfig "prod" (dbSectionWith (Value.int (-7))) computeSectionOK) =
      Except.error [⟨["database"], "Prod backup_retention must be >= 30, found -7."⟩] :=
  ⟨(claim_C8_amended "dev" (-7) computeSectionOK ⟨"t3.medium", 2⟩ rfl).1 (by decide),
   (claim_C8_amended "prod" (-7) computeSectionOK ⟨"t3.medium", 2⟩ rfl).2 (by decide)⟩

/-!
## C6 — diff lemmas
-/

theorem mem_insertKey (a k : String) (l : List String) :
    a ∈ insertKey k l ↔ a = k ∨ a ∈ l := by
  induction l with
  | nil => simp [insertKey]
  | cons x xs ih =>
    by_cases h1 : k < x
    · simp [insertKey, h1]
    · by_cases h2 : k = x
      · subst h2; simp [insertKey, h1]
      · simp [insertKey, h1, h2, ih]; tauto

theorem pairwise_insertKey (k : String) (l : List String)
    (h : l.Pairwise (· < ·)) : (insertKey k l).Pairwise (· < ·) := by
  induction l with
  | nil => simp [insertKey]
  | cons x xs ih =>
    rcases List.pairwise_cons.mp h with ⟨hx, hxs⟩
    by_cases h1 : k < x
    · simp only [insertKey, if_pos h1]
      refine List.pairwise_cons.mpr ⟨?_, h⟩
      intro y hy
      rcases List.mem_cons.mp hy with rfl | hy'
      · exact h1
      · exact lt_trans h1 (hx y hy')
    · by_cases h2 : k = x
      · simpa [insertKey, h1, h2] using h
      · have h3 : x < k := lt_of_le_of_ne (not_lt.mp h1) (Ne.symm h2)
        simp only [insertKey, if_neg h1, if_neg h2]
        refine List.pairwise_cons.mpr ⟨?_, ih hxs⟩
        intro y hy
        rcases (mem_insertKey y k xs).mp hy with rfl | hy'
        · exact h3
        · exact hx y hy'

theorem pairwise_sortedKeys (ks : List String) : (sortedKeys ks).Pairwise (· < ·) := by
  induction ks with
  | nil => simp [sortedKeys]
  | cons k ks ih => exact pairwise_insertKey k _ ih

theorem mem_sortedKeys (a : String) (ks : List String) : a ∈ sortedKeys ks ↔ a ∈ ks := by
  induction ks with
  | nil => simp [sortedKeys]
  | cons k ks ih =>
    show a ∈ insertKey k (sortedKeys ks) ↔ _
    simp [mem_insertKey, ih]

theorem dictContains_of_mem {d : Dict} {k : String} {v : Value}
    (h : (k, v) ∈ d) : dictContains d k = true := by
  induction d with
  | nil => simp at h
  | cons hd tl ih =>
    obtain ⟨k', v'⟩ := hd
    rcases List.mem_cons.mp h with heq | hm
    · cases heq; simp [dictContains]
    · by_cases hk : k' = k
      · simp [dictContains, hk]
      · simpa [dictContains, hk] using ih hm

theorem dictGet_of_mem_wf {d : Dict} {k : String} {v : Value}
    (hwf : dictWF d = true) (hm : (k, v) ∈ d) : dictGet d k = some v := by
  induction d with
  | nil => simp at hm
  | cons hd tl ih =>
    obtain ⟨k', v'⟩ := hd
    rw [dictWF] at hwf
    simp only [Bool.and_eq_true, Bool.not_eq_true'] at hwf
    obtain ⟨⟨hnc, _⟩, hwtl⟩ := hwf
    rcases List.mem_cons.mp hm with heq | hm'
    · cases heq; simp
    · have hne : k' ≠ k := by
        intro h; subst h
        rw [dictContains_of_mem hm'] at hnc
        exact Bool.noConfusion hnc
      simpa [hne] using ih hwtl hm'

theorem valueWF_of_mem_wf {d : Dict} {k : String} {v : Value}
    (hwf : dictWF d = true) (hm : (k, v) ∈ d) : valueWF v = true := by
  induction d with
  | nil => simp at hm
  | cons hd tl ih =>
    obtain ⟨k', v'⟩ := hd
    rw [dictWF] at hwf
    simp only [Bool.and_eq_true] at hwf
    obtain ⟨⟨_, hv'⟩, hwtl⟩ := hwf
    rcases List.mem_cons.mp hm with heq | hm'
    · cases heq; exact hv'
    · exact ih hwtl hm'

theorem pyEq_refl_aux :
    ∀ (n : Nat) (v : Value), sizeOf v ≤ n → valueWF v = true → pyEq v v = true := by
  intro n
  induction n with
  | zero =>
    intro v hv _
    exfalso
    cases v <;> simp at hv
  | succ n ih =>
    intro v hv hwf
    cases v with
    | str s => rw [pyEq]; simp
    | int m => rw [pyEq]; simp
    | bool b => rw [pyEq]; simp
    | null => rw [pyEq]
    | list xs =>
      rw [pyEq]
      rw [valueWF] at hwf
      have hsz : sizeOf xs ≤ n := by simp at hv; omega
      clear hv
      induction xs with
      | nil => rw [pyListEq]
      | cons x rest ihl =>
        rw [pyListEq]
        rw [listWF] at hwf
        simp only [Bool.and_eq_true] at hwf
        obtain ⟨hx, hrest⟩ := hwf
        have h1 : sizeOf x ≤ n := by simp at hsz; omega
        have h2 : sizeOf rest ≤ n := by simp at hsz; omega
        simp only [Bool.and_eq_true]
        exact ⟨ih x h1 hx, ihl hrest h2⟩
    | dict d =>
      rw [pyEq]
      rw [valueWF] at hwf
      simp only [Bool.and_eq_true, decide_eq_true_eq]
      refine ⟨by trivial, ?_⟩
      have hsz : sizeOf d ≤ n := by simp at hv; omega
      -- pyDictSub l d = true whenever every entry of l is an entry of d
      have hsub : ∀ l : Dict, (∀ p, p ∈ l → p ∈ d) → pyDictSub l d = true := by
        intro l
        induction l with
        | nil => intro _; rw [pyDictSub]
        | cons p rest ihl =>
          intro hmem
          obtain ⟨k, v⟩ := p
          rw [pyDictSub]
          have hm : (k, v) ∈ d := hmem _ (List.mem_cons_self _ _)
          rw [dictGet_of_mem_wf hwf hm]
          simp only [Bool.and_eq_true]
          constructor
          · have hvsz : sizeOf v ≤ n := by
              have := List.sizeOf_lt_of_mem hm
              simp at this; omega
            exact ih v hvsz (valueWF_of_mem_wf hwf hm)
          · exact ihl (fun q hq => hmem q (List.mem_cons_of_mem _ hq))
      exact hsub d (fun p hp => hp)

/-- Python equality is reflexive on well-formed (duplicate-free) values. -/
theorem pyEq_refl (v : Value) (h : valueWF v = true) : pyEq v v = true :=
  pyEq_refl_aux (sizeOf v) v le_rfl h

theorem dictGet_assign_cases (acc : Dict) (key k : String) (val v : Value)
    (h : dictGet (dictAssign acc key val) k = some v) :
    (k = key ∧ v = val) ∨ dictGet acc k = some v := by
  by_cases hk : key = k
  · subst hk
    rw [dictGet_assign_self] at h
    exact Or.inl ⟨rfl, (Option.some.injEq _ _).mp h.symm⟩
  · right
    rwa [dictGet_assign_ne _ _ _ _ hk] at h

/-- Every value stored by flattening is a value of the accumulator or a
terminal value of the flattened mapping (strong induction on the size of
the remaining entries). -/
theorem flattenAux_wf_aux :
    ∀ (n : Nat) (parent : String) (acc d : Dict), sizeOf d ≤ n →
      (∀ k v, dictGet acc k = some v → valueWF v = true) →
      dictWF d = true →
      ∀ k v, dictGet (flattenAux parent acc d) k = some v → valueWF v = true := by
  intro n
  induction n with
  | zero =>
    intro parent acc d hsz
    exfalso
    cases d <;> simp at hsz
  | succ n ih =>
    intro parent acc d hsz hacc hwf k v h
    cases d with
    | nil =>
      rw [flattenAux] at h
      exact hacc k v h
    | cons hd0 rest =>
      obtain ⟨k0, v0⟩ := hd0
      rw [dictWF] at hwf
      simp only [Bool.and_eq_true] at hwf
      obtain ⟨⟨_, hv0⟩, hrest⟩ := hwf
      have hszrest : sizeOf rest ≤ n := by simp at hsz; omega
      cases v0
      case dict sub =>
        simp only [flattenAux] at h
        have hszsub : sizeOf sub ≤ n := by simp at hsz; omega
        rw [valueWF] at hv0
        exact ih parent _ rest hszrest (ih _ acc sub hszsub hacc hv0) hrest k v h
      all_goals {
        simp only [flattenAux] at h
        refine ih parent _ rest hszrest ?_ hrest k v h
        intro k' v' h'
        rcases dictGet_assign_cases _ _ _ _ _ h' with ⟨_, rfl⟩ | hold
        · exact hv0
        · exact hacc k' v' hold }

/-- All values looked up in a flattened well-formed config are
well-formed. -/
theorem flatten_dict_wf (X : Dict) (h : dictWF X = true) (k : String) (v : Value)
    (hg : dictGet (flatten_dict X) k = some v) : valueWF v = true :=
  flattenAux_wf_aux (sizeOf X) "" [] X le_rfl
    (by intro k' v' h'; simp at h') h k v hg

theorem diffEntry_eq_some (f1 f2 : Dict) (a k : String) (v1 v2 : Value) :
    diffEntry f1 f2 a = some (k, v1, v2) ↔
      a = k ∧ k ≠ "environment" ∧ v1 = dictGetD f1 k MISSING ∧
      v2 = dictGetD f2 k MISSING ∧ pyEq v1 v2 = false := by
  unfold diffEntry
  constructor
  · intro h
    by_cases he : a = "environment"
    · simp [he] at h
    · simp only [if_neg he] at h
      by_cases hp : pyEq (dictGetD f1 a MISSING) (dictGetD f2 a MISSING) = true
      · simp [hp] at h
      · simp only [Bool.not_eq_true] at hp
        simp only [hp, Bool.false_eq_true, if_false, Option.some.injEq] at h
        obtain ⟨rfl, rfl, rfl⟩ := h
        exact ⟨rfl, he, rfl, rfl, hp⟩
  · rintro ⟨rfl, he, h1, h2, hp⟩
    subst h1; subst h2
    simp [he, hp]

/-- C6 counterexample: the resolved configurations for bases `{a: 1}` and
`{a: True}` (with empty overlays) have strictly unequal values at key `a`
— an int versus a boolean, distinct constructors, no coercion — yet the
diff reports nothing, because Python `==` equates `True` with `1`.  The
claim requires the key to be reported exactly when the looked-up values
are not strictly equal. -/
theorem claim_C6_counterexample :
    run_diff (get_config_for_env "dev" [("a", Value.int 1)] [])
      (get_config_for_env "prod" [("a", Value.bool true)] []) = [] ∧
    Value.int 1 ≠ Value.bool true := by
  constructor
  · simp [run_diff, get_config_for_env, recursive_merge, dictAssign, flatten_dict,
      flattenAux, dictKeys, sortedKeys, insertKey, diffEntry, dictGetD, dictGet, pyEq,
      MISSING]
  · intro h
    exact Value.noConfusion h

/-- C6 amended: diff visits the union of the two flattened key sets in
strictly increasing lexicographic order of the joined key string, never
reports the synthetic `environment` key, substitutes the `<<<MISSING>>>`
sentinel for a key absent from one side, and reports exactly the union
keys whose two looked-up values (or sentinel) differ under Python
equality — which equates booleans with the integers 0/1 but no other
cross-type values (e.g. `30` and `"30"` differ); consequently the diff of
any well-formed resolved configuration with itself is empty. -/
theorem claim_C6_amended (c1 c2 X : Dict) (hX : dictWF X = true) :
    ((run_diff c1 c2).Pairwise (fun p q => p.1 < q.1)) ∧
    (∀ (k : String) (v1 v2 : Value),
      (k, v1, v2) ∈ run_diff c1 c2 ↔
        k ≠ "environment" ∧
        (k ∈ dictKeys (flatten_dict c1) ∨ k ∈ dictKeys (flatten_dict c2)) ∧
        v1 = dictGetD (flatten_dict c1) k MISSING ∧
        v2 = dictGetD (flatten_dict c2) k MISSING ∧
        pyEq v1 v2 = false) ∧
    run_diff X X = [] := by
  refine ⟨?_, ?_, ?_⟩
  · unfold run_diff
    rw [List.pairwise_filterMap]
    refine (pairwise_sortedKeys _).imp ?_
    intro a b hab x hx y hy
    obtain ⟨ka, va1, va2⟩ := x
    obtain ⟨kb, vb1, vb2⟩ := y
    obtain ⟨rfl, _⟩ := (diffEntry_eq_some _ _ _ _ _ _).mp (Option.mem_def.mp hx)
    obtain ⟨rfl, _⟩ := (diffEntry_eq_some _ _ _ _ _ _).mp (Option.mem_def.mp hy)
    exact hab
  · intro k v1 v2
    unfold run_diff
    simp only [List.mem_filterMap]
    constructor
    · rintro ⟨a, ha, hf⟩
      obtain ⟨rfl, he, h1, h2, hp⟩ := (diffEntry_eq_some _ _ _ _ _ _).mp hf
      have hmem := (mem_sortedKeys _ _).mp ha
      rw [List.mem_append] at hmem
      exact ⟨he, hmem, h1, h2, hp⟩
    · rintro ⟨he, hmem, h1, h2, hp⟩
      refine ⟨k, ?_, (diffEntry_eq_some _ _ _ _ _ _).mpr ⟨rfl, he, h1, h2, hp⟩⟩
      rw [mem_sortedKeys, List.mem_append]
      exact hmem
  · unfold run_diff
    rw [List.filterMap_eq_nil_iff]
    intro a ha
    unfold diffEntry
    by_cases he : a = "environment"
    · simp [he]
    · have hrefl : pyEq (dictGetD (flatten_dict X) a MISSING)
          (dictGetD (flatten_dict X) a MISSING) = true := by
        cases hg : dictGet (flatten_dict X) a with
        | none =>
          simp only [dictGetD, hg, Option.getD_none]
          exact pyEq_refl MISSING (by simp [MISSING, valueWF])
        | some v =>
          simp only [dictGetD, hg, Option.getD_some]
          exact pyEq_refl v (flatten_dict_wf X hX a v hg)
      simp [he, hrefl]

/-- C6 witness: the diff of a concrete resolved configuration with itself
is empty. -/
theorem claim_C6_amended_witness :
    run_diff (mkTopConfig "dev" dbSectionOK computeSectionOK)
      (mkTopConfig "dev" dbSectionOK computeSectionOK) = [] :=
  (claim_C6_amended [] [] (mkTopConfig "dev" dbSectionOK computeSectionOK)
    (by simp [mkTopConfig, dbSectionOK, computeSectionOK, dictWF, valueWF, listWF,
      dictContains, dictGet])).2.2

/-!
## C2 — the merge matches the claim's reference definition

`recursive_merge` consults the *accumulated* result (`key in merged`)
while the reference definition consults *base*; on duplicate-free
overlays the two coincide because no earlier override step can have
written the current (distinct) key.
-/

theorem recursive_merge_cons (m : Dict) (key : String) (val : Value) (rest : Dict) :
    recursive_merge m ((key, val) :: rest) =
      match dictGet m key, val with
      | some (Value.dict sub1), Value.dict sub2 =>
        recursive_merge (dictAssign m key (Value.dict (recursive_merge sub1 sub2))) rest
      | _, _ => recursive_merge (dictAssign m key val) rest := by
  rw [recursive_merge.eq_def]

theorem mergeSpecAux_cons (base acc : Dict) (key : String) (val : Value) (rest : Dict) :
    mergeSpecAux base acc ((key, val) :: rest) =
      match dictGet base key, val with
      | some (Value.dict b), Value.dict o =>
        mergeSpecAux base (dictAssign acc key (Value.dict (mergeSpecAux b b o))) rest
      | _, _ => mergeSpecAux base (dictAssign acc key val) rest := by
  rw [mergeSpecAux.eq_def]

theorem merge_agrees_aux :
    ∀ (n : Nat) (overlay : Dict), sizeOf overlay ≤ n →
      ∀ (base m : Dict), dictWF overlay = true →
        (∀ p : String × Value, p ∈ overlay → dictGet m p.1 = dictGet base p.1) →
        recursive_merge m overlay = mergeSpecAux base m overlay := by
  intro n
  induction n with
  | zero =>
    intro overlay hsz
    exfalso
    cases overlay <;> simp at hsz
  | succ n ih =>
    intro overlay hsz base m hwf hcond
    cases overlay with
    | nil => rw [recursive_merge, mergeSpecAux]
    | cons hd rest =>
      obtain ⟨key, val⟩ := hd
      rw [dictWF] at hwf
      simp only [Bool.and_eq_true, Bool.not_eq_true'] at hwf
      obtain ⟨⟨hnc, hvwf⟩, hwrest⟩ := hwf
      have hszrest : sizeOf rest ≤ n := by simp at hsz; omega
      have hkey : dictGet m key = dictGet base key :=
        hcond (key, val) (List.mem_cons_self _ _)
      have hne : ∀ p : String × Value, p ∈ rest → key ≠ p.1 := by
        intro p hp heq
        have : dictContains rest key = true := by
          obtain ⟨pk, pv⟩ := p
          cases heq
          exact dictContains_of_mem hp
        rw [this] at hnc
        exact Bool.noConfusion hnc
      have hcondR : ∀ x : Value, ∀ p : String × Value, p ∈ rest →
          dictGet (dictAssign m key x) p.1 = dictGet base p.1 := by
        intro x p hp
        rw [dictGet_assign_ne _ _ _ _ (hne p hp)]
        exact hcond p (List.mem_cons_of_mem _ hp)
      rw [recursive_merge_cons, mergeSpecAux_cons, hkey]
      cases val
      case dict sub2 =>
        cases hbase : dictGet base key with
        | none =>
          exact ih rest hszrest base _ hwrest (hcondR _)
        | some bv =>
          cases bv
          case dict sub1 =>
            have hinner : recursive_merge sub1 sub2 = mergeSpecAux sub1 sub1 sub2 := by
              have hszsub : sizeOf sub2 ≤ n := by simp at hsz; omega
              rw [valueWF] at hvwf
              exact ih sub2 hszsub sub1 sub1 hvwf (fun _ _ => rfl)
            simp only [hinner]
            exact ih rest hszrest base _ hwrest (hcondR _)
          all_goals exact ih rest hszrest base _ hwrest (hcondR _)
      all_goals {
        cases hbase : dictGet base key with
        | none => exact ih rest hszrest base _ hwrest (hcondR _)
        | some bv => cases bv <;> exact ih rest hszrest base _ hwrest (hcondR _)
      }

/-- C2: on tree-shaped (duplicate-free) mappings, `recursive_merge`
coincides with the reference recursive definition formalised from the
claim: start from base; for each overlay key, if the key is present in
base and both values are mappings the stored value is their recursive
merge, in every other case it is exactly the overlay value. -/
theorem claim_C2_merge_matches_reference (base overlay : Dict)
    (_hb : dictWF base = true) (ho : dictWF overlay = true) :
    recursive_merge base overlay = merge_spec base overlay := by
  unfold merge_spec
  exact merge_agrees_aux (sizeOf overlay) overlay le_rfl base base ho (fun _ _ => rfl)

/-- C2 witness: a concrete nested merge computed both ways. -/
theorem claim_C2_merge_matches_reference_witness :
    recursive_merge
        [("a", Value.dict [("x", Value.int 1), ("y", Value.int 2)]), ("b", Value.int 3)]
        [("a", Value.dict [("y", Value.int 9), ("z", Value.int 4)]), ("c", Value.str "s")] =
      merge_spec
        [("a", Value.dict [("x", Value.int 1), ("y", Value.int 2)]), ("b", Value.int 3)]
        [("a", Value.dict [("y", Value.int 9), ("z", Value.int 4)]), ("c", Value.str "s")] :=
  claim_C2_merge_matches_reference _ _
    (by simp [dictWF, valueWF, listWF, dictContains, dictGet])
    (by simp [dictWF, valueWF, listWF, dictContains, dictGet])

/-!
## C9 — merge identity and non-mutation (heap model)
-/

theorem storeGet_append_lt (s : Store) (d : HDict) (a : Nat) (h : a < s.length) :
    storeGet (s ++ [d]) a = storeGet s a := by
  induction s generalizing a with
  | nil => simp at h
  | cons x xs ihs =>
    cases a with
    | zero => rfl
    | succ a => exact ihs a (by simpa using h)

theorem storeGet_set_ne (s : Store) (b : Nat) (d : HDict) (a : Nat) (h : a ≠ b) :
    storeGet (storeSet s b d) a = storeGet s a := by
  induction s generalizing a b with
  | nil => rfl
  | cons x xs ihs =>
    cases b with
    | zero =>
      cases a with
      | zero => exact absurd rfl h
      | succ a => rfl
    | succ b =>
      cases a with
      | zero => rfl
      | succ a => exact ihs b a (fun hh => h (by rw [hh]))

theorem rmLoop_cons (fuel m : Nat) (k : String) (v : HValue)
    (rest : List (String × HValue)) (s : Store) :
    rmLoop fuel m ((k, v) :: rest) s =
      match hdictGet (storeGet s m) k, v with
      | some (HValue.href a1), HValue.href a2 =>
        rmLoop fuel m rest
          (storeSet (rmHeap fuel a1 a2 s).2 m
            (hdictAssign (storeGet (rmHeap fuel a1 a2 s).2 m) k
              (HValue.href (rmHeap fuel a1 a2 s).1)))
      | _, _ => rmLoop fuel m rest (storeSet s m (hdictAssign (storeGet s m) k v)) := by
  rw [rmLoop.eq_def]

/-- The override loop only grows the store and only writes to `m`. -/
theorem rmLoop_frame (fuel : Nat)
    (hA : ∀ b o s, s.length ≤ (rmHeap fuel b o s).2.length ∧
      ∀ a, a < s.length → storeGet (rmHeap fuel b o s).2 a = storeGet s a) :
    ∀ (items : List (String × HValue)) (m : Nat) (s : Store),
      s.length ≤ (rmLoop fuel m items s).2.length ∧
      ∀ a, a < s.length → a ≠ m →
        storeGet (rmLoop fuel m items s).2 a = storeGet s a := by
  intro items
  induction items with
  | nil =>
    intro m s
    rw [rmLoop]
    exact ⟨le_rfl, fun a _ _ => rfl⟩
  | cons p rest ih =>
    intro m s
    obtain ⟨k, v⟩ := p
    rw [rmLoop_cons]
    have hdef : ∀ w : HValue,
        s.length ≤
          (rmLoop fuel m rest (storeSet s m (hdictAssign (storeGet s m) k w))).2.length ∧
        ∀ a, a < s.length → a ≠ m →
          storeGet (rmLoop fuel m rest
            (storeSet s m (hdictAssign (storeGet s m) k w))).2 a = storeGet s a := by
      intro w
      obtain ⟨hlen, hfr⟩ := ih m (storeSet s m (hdictAssign (storeGet s m) k w))
      refine ⟨?_, ?_⟩
      · exact le_trans (by simp [storeSet]) hlen
      · intro a ha hne
        have ha2 : a < (storeSet s m (hdictAssign (storeGet s m) k w)).length := by
          simp only [storeSet, List.length_set]; omega
        rw [hfr a ha2 hne, storeGet_set_ne _ _ _ _ hne]
    cases v
    case href a2 =>
      cases hkv : hdictGet (storeGet s m) k with
      | some hv =>
        cases hv
        case href a1 =>
          obtain ⟨hAlen, hAfr⟩ := hA a1 a2 s
          obtain ⟨hlen, hfr⟩ := ih m
            (storeSet (rmHeap fuel a1 a2 s).2 m
              (hdictAssign (storeGet (rmHeap fuel a1 a2 s).2 m) k
                (HValue.href (rmHeap fuel a1 a2 s).1)))
          refine ⟨?_, ?_⟩
          · exact le_trans hAlen (le_trans (by simp [storeSet]) hlen)
          · intro a ha hne
            have ha2 : a < (storeSet (rmHeap fuel a1 a2 s).2 m
                (hdictAssign (storeGet (rmHeap fuel a1 a2 s).2 m) k
                  (HValue.href (rmHeap fuel a1 a2 s).1))).length := by
              simp only [storeSet, List.length_set]
              omega
            rw [hfr a ha2 hne, storeGet_set_ne _ _ _ _ hne, hAfr a ha]
        all_goals exact hdef _
      | none => exact hdef _
    all_goals {
      cases hdictGet (storeGet s m) k with
      | none => exact hdef _
      | some hv => cases hv <;> exact hdef _
    }

/-- `recursive_merge` on the heap only grows the store: every address
that existed before the call reads exactly the same object after. -/
theorem rmHeap_frame : ∀ (fuel b o : Nat) (s : Store),
    s.length ≤ (rmHeap fuel b o s).2.length ∧
    ∀ a, a < s.length → storeGet (rmHeap fuel b o s).2 a = storeGet s a := by
  intro fuel
  induction fuel with
  | zero =>
    intro b o s
    rw [rmHeap]
    exact ⟨le_rfl, fun a _ => rfl⟩
  | succ fuel ih =>
    intro b o s
    rw [rmHeap]
    obtain ⟨hlen, hfr⟩ := rmLoop_frame fuel ih (storeGet s o) s.length (s ++ [storeGet s b])
    constructor
    · exact le_trans (by simp) hlen
    · intro a ha
      rw [hfr a (by simp; omega) (by omega)]
      exact storeGet_append_lt s _ a ha

/-- C9: merging with an empty overlay returns the base mapping unchanged
(`merge(base, {}) == base`), and merge never mutates its first argument:
in the heap model every object allocated before the call — in particular
the entire object graph of `base` — reads exactly the same afterwards,
for every fuel bound. -/
theorem claim_C9_merge_identity_no_mutation :
    (∀ B : Dict, recursive_merge B [] = B) ∧
    (∀ (fuel b o : Nat) (s : Store) (a : Nat), a < s.length →
      storeGet (rmHeap fuel b o s).2 a = storeGet s a) := by
  constructor
  · intro B
    rw [recursive_merge]
  · intro fuel b o s a ha
    exact (rmHeap_frame fuel b o s).2 a ha

/-- C9 witness: a two-object heap; after merging object 0 with object 1,
object 0 still reads its original content. -/
theorem claim_C9_merge_identity_no_mutation_witness :
    recursive_merge [("a", Value.int 1)] [] = [("a", Value.int 1)] ∧
    storeGet (rmHeap 5 0 1 [[("x", HValue.hint 1)], [("x", HValue.hint 2)]]).2 0 =
      storeGet [[("x", HValue.hint 1)], [("x", HValue.hint 2)]] 0 :=
  ⟨claim_C9_merge_identity_no_mutation.1 _,
   claim_C9_merge_identity_no_mutation.2 5 0 1 _ 0 (by decide)⟩
